import Mathlib

/-!
A shallow embedding of the BEAGLE likelihood-evaluation engine described by
`src/include/beagle.h`.  The header declares the API only (no function bodies
are present in the repository), so every operational definition below is
modelled from the specification's words, as its doc comment records.
Numerical values are represented exactly by rationals; the transcendental
functions (`exp`, `log`) of the floating-point implementation appear either as
an abstract parameter or as `Real.log` on the exact value.
-/

namespace Beagle

/-- Binary digit sum with explicit fuel (structural recursion, so that it
evaluates by kernel reduction); `fuel ≥ n` suffices since halving reaches 0
within `n` steps. -/
def popCountFuel : Nat → Nat → Nat
  | 0, _ => 0
  | _ + 1, 0 => 0
  | fuel + 1, n + 1 => (n + 1) % 2 + popCountFuel fuel ((n + 1) / 2)

/-- Number of set bits of a natural number, used to count how many preference
bit-flags (`BeagleFlags` are bit masks, e.g. `DOUBLE = 1<<0`, `GPU = 1<<17`)
a resource satisfies. -/
def popCount (n : Nat) : Nat :=
  popCountFuel n n

/-- A compute resource, as in the header's `Resource` record: an identifier
(its position in the enumeration returned by `getResourceList`) and the
capability bit-flags that characterize it. -/
structure Resource where
  id : Nat
  flags : Nat
deriving DecidableEq, Repr

/-- A resource satisfies a requirement flag set when every required bit is
present among its capability flags. -/
def meetsRequirements (req : Nat) (r : Resource) : Bool :=
  req &&& r.flags == req

/-- The number of preference flags a resource satisfies. -/
def preferenceScore (pref : Nat) (r : Resource) : Nat :=
  popCount (pref &&& r.flags)

/-- Modelled from the spec: the Resource Selector of `createInstance` (the
header declares `createInstance` but its body is not in the repository).
"filter the candidate set to those satisfying every requirement flag ...;
fail with a "no matching resource" condition if the filtered set is empty.
Rank survivors by the count of preference flags they satisfy, descending;
tie-break deterministically by resource enumeration order (lowest resource id
wins)."  The candidate list is given in enumeration order; the first survivor
attaining the maximal preference score is returned. -/
def selectResource (candidates : List Resource) (req pref : Nat) :
    Option Resource :=
  let survivors := candidates.filter (meetsRequirements req)
  match (survivors.map (preferenceScore pref)).maximum with
  | none => none
  | some m => survivors.find? (fun r => preferenceScore pref r == m)

/-- One peeling operation of `updatePartials`: the header's 5-tuple
`{destinationPartials, child1Partials, child1TransitionMatrix,
child2Partials, child2TransitionMatrix}`. -/
structure Operation where
  destinationPartials : Nat
  child1Partials : Nat
  child1TransitionMatrix : Nat
  child2Partials : Nat
  child2TransitionMatrix : Nat
deriving DecidableEq, Repr

/-- The structural sizes of an instance that the peeling and aggregation
formulas range over: `stateCount` and `patternCount` from `createInstance`,
and the number of rate categories the instance is configured with. -/
structure Dims where
  stateCount : Nat
  patternCount : Nat
  categoryCount : Nat
deriving DecidableEq, Repr

/-- The numerical state the Peeling Executor acts on: for each partials-buffer
index a dense array of conditional likelihoods indexed by (rate category,
site pattern, state), and for each buffer its per-site Scale-Factor Record.
The record is kept multiplicatively, as the accumulated product of the
per-site divisors applied by rescaling; the spec's additive log-scale record
is `Real.log` of it (log of the product is the sum of the logs), and a fresh
or never-rescaled buffer has record 1 (log-correction 0). -/
structure BufferState where
  partials : Nat → Nat → Nat → Nat → ℚ
  scaleRecord : Nat → Nat → ℚ

/-- Modelled from the spec: the pre-rescaling value the Peeling Executor
computes for a destination cell,
"destination[site, state] = Σ_{s1} child1[site, s1]·P1[state→s1] ·
Σ_{s2} child2[site, s2]·P2[state→s2]", independently per rate category.
`matrices` maps a transition-matrix buffer index and a category to the
category's probability matrix, indexed `[state][childState]`. -/
def peelValue (dims : Dims) (matrices : Nat → Nat → Nat → Nat → ℚ)
    (st : BufferState) (op : Operation)
    (c site state : Nat) : ℚ :=
  (∑ s1 ∈ Finset.range dims.stateCount,
      st.partials op.child1Partials c site s1 *
        matrices op.child1TransitionMatrix c state s1) *
  (∑ s2 ∈ Finset.range dims.stateCount,
      st.partials op.child2Partials c site s2 *
        matrices op.child2TransitionMatrix c state s2)

/-- The per-site maximum of the freshly computed destination values across all
states and categories, the quantity rescaling divides by.  The fold starts at
0: conditional likelihoods are nonnegative, so this is their maximum. -/
def siteMax (dims : Dims) (value : Nat → Nat → ℚ) : ℚ :=
  ((List.range dims.categoryCount).flatMap (fun c =>
      (List.range dims.stateCount).map (fun i => value c i))).foldl max 0

/-- The divisor rescaling applies at one site: the per-site maximum when it
exceeds the configured clamp epsilon, else 1 (rescaling skipped, raw value
kept). -/
def rescaleDivisor (eps m : ℚ) : ℚ :=
  if eps < m then m else 1

/-- Modelled from the spec: one step of the Peeling Executor (the header
declares `updatePartials` but its body is not in the repository).  The
destination buffer receives the peeling formula's values; when the rescale
flag is set, every entry at a site is divided by that site's maximum across
states and categories (if it exceeds `eps`) and the log of the divisor is
accumulated into the destination's Scale-Factor Record on top of the records
already accumulated from the two children (the record is stored as the
product of divisors, so "accumulated additively in log space" is
"multiplied" here); with the flag clear no divisor is applied and only the
children's records propagate. -/
def updatePartialsOp (dims : Dims) (eps : ℚ)
    (matrices : Nat → Nat → Nat → Nat → ℚ)
    (rescale : Bool) (st : BufferState) (op : Operation) : BufferState :=
  let raw : Nat → Nat → Nat → ℚ := peelValue dims matrices st op
  let divisor : Nat → ℚ := fun site =>
    if rescale then rescaleDivisor eps (siteMax dims (fun c i => raw c site i))
    else 1
  let childScale : Nat → ℚ := fun site =>
    st.scaleRecord op.child1Partials site * st.scaleRecord op.child2Partials site
  { partials := fun b =>
      if b = op.destinationPartials then
        fun c site i => raw c site i / divisor site
      else st.partials b
    scaleRecord := fun b =>
      if b = op.destinationPartials then
        fun site => childScale site * divisor site
      else st.scaleRecord b }

/-- Modelled from the spec: the Peeling Executor's batched call over an
operation list, executing the operations exactly in the order supplied
("operations are executed in the order supplied; ... The executor does not
reorder or validate the dependency graph"). -/
def updatePartials (dims : Dims) (eps : ℚ)
    (matrices : Nat → Nat → Nat → Nat → ℚ)
    (rescale : Bool) (st : BufferState) (operations : List Operation) :
    BufferState :=
  operations.foldl (updatePartialsOp dims eps matrices rescale) st

/-- Modelled from the spec: the expansion of a compact tip-state buffer set by
`setTipStates` ("the array of states: 0 to stateCount - 1, missing =
stateCount") into partials form: one-hot encoding for an observed state, and
"the sentinel value == stateCount meaning "ambiguous/missing" (treated as
uniform likelihood over all states for that site)", i.e. all-ones. -/
def expandTipStates (stateCount : Nat) (states : Nat → Nat) :
    Nat → Nat → Nat → ℚ :=
  fun _ site i =>
    if states site = stateCount then 1
    else if states site = i then 1 else 0

/-- An eigendecomposition buffer's contents, as loaded by
`setEigenDecomposition`: eigenvectors matrix `V`, inverse eigenvectors matrix
`V⁻¹` and eigenvalues vector `λ`. -/
structure EigenDecomp where
  eigenVectors : Nat → Nat → ℚ
  inverseEigenVectors : Nat → Nat → ℚ
  eigenValues : Nat → ℚ

/-- The three families of matrix buffers sharing one index space: transition
probability matrices and the optional first- and second-derivative matrices,
each indexed by (matrix-buffer index, rate category, row state, column
state). -/
structure MatrixState where
  prob : Nat → Nat → Nat → Nat → ℚ
  deriv1 : Nat → Nat → Nat → Nat → ℚ
  deriv2 : Nat → Nat → Nat → Nat → ℚ

/-- Modelled from the spec: one entry of the transition-probability formula
"P(t) = V · diag(exp(λᵢ·t)) · V⁻¹".  The exponential is abstracted as the
parameter `expF` (the implementation computes it in floating point; the
repository holds no body for `updateTransitionMatrices`). -/
def transitionEntry (expF : ℚ → ℚ) (E : EigenDecomp) (stateCount : Nat)
    (t : ℚ) (i j : Nat) : ℚ :=
  ∑ k ∈ Finset.range stateCount,
    E.eigenVectors i k * expF (E.eigenValues k * t) * E.inverseEigenVectors k j

/-- Modelled from the spec: one entry of the first-derivative formula
"dP/dt = V · diag(λᵢ·exp(λᵢ·t)) · V⁻¹". -/
def transitionEntryD1 (expF : ℚ → ℚ) (E : EigenDecomp) (stateCount : Nat)
    (t : ℚ) (i j : Nat) : ℚ :=
  ∑ k ∈ Finset.range stateCount,
    E.eigenVectors i k * (E.eigenValues k * expF (E.eigenValues k * t)) *
      E.inverseEigenVectors k j

/-- Modelled from the spec: one entry of the second-derivative formula
"d²P/dt² = V · diag(λᵢ²·exp(λᵢ·t)) · V⁻¹". -/
def transitionEntryD2 (expF : ℚ → ℚ) (E : EigenDecomp) (stateCount : Nat)
    (t : ℚ) (i j : Nat) : ℚ :=
  ∑ k ∈ Finset.range stateCount,
    E.eigenVectors i k *
      (E.eigenValues k * E.eigenValues k * expF (E.eigenValues k * t)) *
      E.inverseEigenVectors k j

/-- Modelled from the spec: one entry of the `updateTransitionMatrices` call
(entry `n` of the parallel arrays).  The probability matrix at index
`probabilityIndices[n]` receives `P(edgeLengths[n])` in every rate-category
slot ("for every rate category the instance is configured with, writing each
into the corresponding category slot"); the derivative stores are written
only when their index array is present ("NULL implies no calculation"). -/
def updateTransitionEntry (expF : ℚ → ℚ) (E : EigenDecomp) (stateCount : Nat)
    (probabilityIndices : List Nat)
    (firstDerivativeIndices secondDerivativeIndices : Option (List Nat))
    (edgeLengths : List ℚ) (n : Nat) (st : MatrixState) : MatrixState :=
  let t := edgeLengths.getD n 0
  let st1 : MatrixState :=
    { st with prob := fun b =>
        if b = probabilityIndices.getD n 0 then
          fun _ i j => transitionEntry expF E stateCount t i j
        else st.prob b }
  let st2 : MatrixState :=
    match firstDerivativeIndices with
    | none => st1
    | some l =>
      { st1 with deriv1 := fun b =>
          if b = l.getD n 0 then
            fun _ i j => transitionEntryD1 expF E stateCount t i j
          else st1.deriv1 b }
  match secondDerivativeIndices with
  | none => st2
  | some l =>
    { st2 with deriv2 := fun b =>
        if b = l.getD n 0 then
          fun _ i j => transitionEntryD2 expF E stateCount t i j
        else st2.deriv2 b }

/-- Modelled from the spec: the batched `updateTransitionMatrices` call over
`count` entries of the parallel index/edge-length arrays, processed in order
(entry 0 first, entry `count - 1` last); the repository holds no body for
it. -/
def updateTransitionMatrices (expF : ℚ → ℚ) (E : EigenDecomp)
    (stateCount : Nat) (probabilityIndices : List Nat)
    (firstDerivativeIndices secondDerivativeIndices : Option (List Nat))
    (edgeLengths : List ℚ) (count : Nat) (st : MatrixState) : MatrixState :=
  match count with
  | 0 => st
  | n + 1 =>
    updateTransitionEntry expF E stateCount probabilityIndices
      firstDerivativeIndices secondDerivativeIndices edgeLengths n
      (updateTransitionMatrices expF E stateCount probabilityIndices
        firstDerivativeIndices secondDerivativeIndices edgeLengths n st)

/-- Modelled from the spec: the state frequency vector used by triple `j` of
a root-aggregation call — per the header of `calculateRootLogLikelihoods`,
"If list length is one, the same state frequencies are used for each
partialsBuffer". -/
def frequenciesFor (stateFrequencies : List (Nat → ℚ)) (j : Nat) :
    Nat → ℚ :=
  if stateFrequencies.length = 1 then stateFrequencies.headD (fun _ => 0)
  else stateFrequencies.getD j (fun _ => 0)

/-- Modelled from the spec: the per-site aggregate likelihood of the root
aggregation, "L(site) = Σ_triples weight · Σ_state freq[state]·partials[site,
state] (summed across categories first within a triple)". -/
def rootLikelihood (dims : Dims) (st : BufferState)
    (bufferIndices : List Nat) (weights : List ℚ)
    (stateFrequencies : List (Nat → ℚ)) (site : Nat) : ℚ :=
  ∑ j ∈ Finset.range bufferIndices.length,
    weights.getD j 0 *
      ∑ i ∈ Finset.range dims.stateCount,
        frequenciesFor stateFrequencies j i *
          ∑ c ∈ Finset.range dims.categoryCount,
            st.partials (bufferIndices.getD j 0) c site i

/-- Modelled from the spec: the per-site output of
`calculateRootLogLikelihoods`,
"outLogLikelihood(site) = log(L(site)) + (accumulated scale-factor correction
for that buffer, that site)", the correction being the log of the (root)
buffer's accumulated divisor product.  A site whose aggregate likelihood is
non-positive is flagged (`none`) instead of receiving a log value ("Fails
(reports, does not crash) if any L(site) is non-positive"), while every other
site still receives its value. -/
noncomputable def calculateRootLogLikelihoods (dims : Dims) (st : BufferState)
    (bufferIndices : List Nat) (weights : List ℚ)
    (stateFrequencies : List (Nat → ℚ)) (site : Nat) : Option ℝ :=
  let L := rootLikelihood dims st bufferIndices weights stateFrequencies site
  if L ≤ 0 then none
  else some (Real.log (L : ℝ) +
    Real.log ((st.scaleRecord (bufferIndices.headD 0) site : ℚ) : ℝ))

/-- The error taxonomy of the spec's §7 (kinds, not the header's literal
codes): (a) resource-selection failure, (b) invalid-handle, (c)
invalid-index, (d) allocation failure, (e) numerical-invalid-result. -/
inductive ErrorKind where
  | noMatchingResource
  | invalidHandle
  | invalidIndex
  | allocationFailure
  | numericalInvalidResult
deriving DecidableEq, Repr

/-- The structural sizes given to `createInstance`. -/
structure InstanceConfig where
  tipCount : Nat
  partialsBufferCount : Nat
  compactBufferCount : Nat
  stateCount : Nat
  patternCount : Nat
  eigenBufferCount : Nat
  matrixBufferCount : Nat
deriving DecidableEq, Repr

/-- The per-instance state of the Buffer & Instance Store: the declared
counts, the partials buffers (buffer, category, site, state) and the compact
tip-state buffers (tip, site). -/
structure InstanceData where
  config : InstanceConfig
  partialsStore : Nat → Nat → Nat → Nat → ℚ
  tipStates : Nat → Nat → Nat

/-- The Buffer & Instance Store across instances: a map from instance
identifier to its data (`none` = unknown or finalized id) and the next fresh
identifier. -/
structure Store where
  instances : Nat → Option InstanceData
  nextId : Nat

/-- A fresh instance's data: the declared counts with zero-initialized
buffers. -/
def freshInstanceData (config : InstanceConfig) : InstanceData :=
  { config := config
    partialsStore := fun _ _ _ _ => 0
    tipStates := fun _ _ => 0 }

/-- Modelled from the spec: `createInstance` (body not in the repository).
Resource selection runs over the candidate list with the requirement and
preference flag sets; on failure the call returns `-1` ("@return the unique
instance identifier (-1 if failed)") and the store is untouched; on success
the next fresh identifier is returned and a fresh instance is installed under
it ("This can be called multiple times ... each returning a unique
identifier"). -/
def createInstance (st : Store) (config : InstanceConfig)
    (candidates : List Resource) (preferenceFlags requirementFlags : Nat) :
    Int × Store :=
  match selectResource candidates requirementFlags preferenceFlags with
  | none => (-1, st)
  | some _ =>
    ((st.nextId : Int),
      { instances := fun i =>
          if i = st.nextId then some (freshInstanceData config)
          else st.instances i
        nextId := st.nextId + 1 })

/-- Modelled from the spec: `setPartials` (body not in the repository).
"load tip states or tip partials into a specified buffer index (fails with
"invalid index" if out of range, "invalid instance" if the instance handle is
unknown/finalized)"; errors are detected eagerly and reported with no
partial work performed, so the store is returned unchanged alongside the
error. -/
def setPartials (st : Store) (instanceId bufferIndex : Nat)
    (inPartials : Nat → Nat → Nat → ℚ) : Option ErrorKind × Store :=
  match st.instances instanceId with
  | none => (some .invalidHandle, st)
  | some d =>
    if bufferIndex < d.config.partialsBufferCount then
      (none,
        { st with instances := fun i =>
            if i = instanceId then
              some { d with partialsStore := fun b =>
                if b = bufferIndex then inPartials else d.partialsStore b }
            else st.instances i })
    else (some .invalidIndex, st)

/-- Modelled from the spec: `getPartials` (body not in the repository),
"read back the contents of any partials buffer (for diagnostics/testing)",
with the same eager invalid-handle / invalid-index detection. -/
def getPartials (st : Store) (instanceId bufferIndex : Nat) :
    Except ErrorKind (Nat → Nat → Nat → ℚ) :=
  match st.instances instanceId with
  | none => .error .invalidHandle
  | some d =>
    if bufferIndex < d.config.partialsBufferCount then
      .ok (d.partialsStore bufferIndex)
    else .error .invalidIndex

/-- Modelled from the spec: `setTipStates` (body not in the repository),
loading a compact state buffer for a tip, with the same eager invalid-handle
/ invalid-index detection and no partial work on error. -/
def setTipStates (st : Store) (instanceId tipIndex : Nat)
    (inStates : Nat → Nat) : Option ErrorKind × Store :=
  match st.instances instanceId with
  | none => (some .invalidHandle, st)
  | some d =>
    if tipIndex < d.config.compactBufferCount then
      (none,
        { st with instances := fun i =>
            if i = instanceId then
              some { d with tipStates := fun b =>
                if b = tipIndex then inStates else d.tipStates b }
            else st.instances i })
    else (some .invalidIndex, st)

/-- Overwriting one partials buffer of a `BufferState` (the caller's direct
load of a leaf buffer, in the form the Peeling Executor consumes). -/
def setBuffer (st : BufferState) (b : Nat) (v : Nat → Nat → Nat → ℚ) :
    BufferState :=
  { st with partials := fun b' => if b' = b then v else st.partials b' }

/-! ## Theorems -/

/-- C1: For every operation 5-tuple (destinationPartials, child1Partials,
child1TransitionMatrix, child2Partials, child2TransitionMatrix) submitted to
the partials-update call, the executor sets the destination buffer — for
every site pattern and state and independently for every rate category — to
(Σ_{s1} child1[site,s1]·P1[state→s1]) · (Σ_{s2} child2[site,s2]·P2[state→s2]),
computed from the buffers as they stand when the operation's turn comes; and
it processes the operations exactly in the order supplied (the list is
consumed strictly left to right, a batch splits into sequential runs), with
no reordering or dependency validation. -/
theorem claim_C1_updatePartials_formula_and_order
    (dims : Dims) (eps : ℚ) (matrices : Nat → Nat → Nat → Nat → ℚ)
    (st : BufferState) (op : Operation) (rescale : Bool)
    (ops ops1 ops2 : List Operation) :
    ((updatePartialsOp dims eps matrices false st op).partials
        op.destinationPartials =
      fun c site state =>
        (∑ s1 ∈ Finset.range dims.stateCount,
            st.partials op.child1Partials c site s1 *
              matrices op.child1TransitionMatrix c state s1) *
        (∑ s2 ∈ Finset.range dims.stateCount,
            st.partials op.child2Partials c site s2 *
              matrices op.child2TransitionMatrix c state s2)) ∧
    (updatePartials dims eps matrices rescale st (op :: ops) =
      updatePartials dims eps matrices rescale
        (updatePartialsOp dims eps matrices rescale st op) ops) ∧
    (updatePartials dims eps matrices rescale st (ops1 ++ ops2) =
      updatePartials dims eps matrices rescale
        (updatePartials dims eps matrices rescale st ops1) ops2) := by
  refine ⟨?_, rfl, ?_⟩
  · funext c site state
    simp [updatePartialsOp, peelValue]
  · simp [updatePartials, List.foldl_append]

/-- C6: Writing a partials array with `setPartials` and then reading that
buffer back with `getPartials` returns exactly the values last written (the
model's rationals are exact, which is the double-precision "bitwise equal"
case). -/
theorem claim_C6_setPartials_getPartials_roundtrip
    (st : Store) (instanceId bufferIndex : Nat) (d : InstanceData)
    (inPartials : Nat → Nat → Nat → ℚ)
    (hlive : st.instances instanceId = some d)
    (hidx : bufferIndex < d.config.partialsBufferCount) :
    getPartials (setPartials st instanceId bufferIndex inPartials).2
      instanceId bufferIndex = .ok inPartials := by
  simp only [setPartials, hlive]
  simp [getPartials, hidx]

/-- Concrete run of the C6 round-trip on a live instance with two partials
buffers. -/
theorem claim_C6_witness :
    getPartials
      (setPartials
        { instances := fun i =>
            if i = 0 then some (freshInstanceData ⟨2, 2, 2, 4, 3, 1, 3⟩)
            else none
          nextId := 1 } 0 1 (fun _ _ _ => 5)).2 0 1 =
      .ok (fun _ _ _ => 5) :=
  claim_C6_setPartials_getPartials_roundtrip _ 0 1 _ _ rfl (by decide)

/-- C7: A tip loaded via `setTipStates` with the sentinel state value
`stateCount` (ambiguous/missing) at every site expands to exactly the uniform
all-ones likelihood vector, and therefore every downstream partials
computation (any operation list, any rescale mode) over a tip buffer so
loaded produces exactly the same partials as over a tip partials buffer
loaded with ones. -/
theorem claim_C7_ambiguous_tip_equals_all_ones
    (dims : Dims) (eps : ℚ) (matrices : Nat → Nat → Nat → Nat → ℚ)
    (rescale : Bool) (st : BufferState) (b : Nat) (ops : List Operation) :
    expandTipStates dims.stateCount (fun _ => dims.stateCount) =
      (fun _ _ _ => (1 : ℚ)) ∧
    updatePartials dims eps matrices rescale
        (setBuffer st b
          (expandTipStates dims.stateCount (fun _ => dims.stateCount))) ops =
      updatePartials dims eps matrices rescale
        (setBuffer st b (fun _ _ _ => (1 : ℚ))) ops := by
  have h : expandTipStates dims.stateCount (fun _ => dims.stateCount) =
      (fun _ _ _ => (1 : ℚ)) := by
    funext c site i
    simp [expandTipStates]
  exact ⟨h, by rw [h]⟩

/-- C8: The data-loading calls (`setTipStates`, `setPartials`) fail with an
invalid-index error when the buffer index is at or beyond the instance's
declared count for that buffer kind, with an invalid-handle error when the
instance id is unknown or finalized, and any error leaves the store — hence
every buffer of every instance — unchanged (eager detection, no partial
work). -/
theorem claim_C8_data_loading_errors
    (st : Store) (instanceId idx : Nat)
    (inPartials : Nat → Nat → Nat → ℚ) (inStates : Nat → Nat) :
    (st.instances instanceId = none →
      setPartials st instanceId idx inPartials =
        (some ErrorKind.invalidHandle, st) ∧
      setTipStates st instanceId idx inStates =
        (some ErrorKind.invalidHandle, st)) ∧
    (∀ d, st.instances instanceId = some d →
      d.config.partialsBufferCount ≤ idx →
      setPartials st instanceId idx inPartials =
        (some ErrorKind.invalidIndex, st)) ∧
    (∀ d, st.instances instanceId = some d →
      d.config.compactBufferCount ≤ idx →
      setTipStates st instanceId idx inStates =
        (some ErrorKind.invalidIndex, st)) ∧
    (∀ e st', setPartials st instanceId idx inPartials = (some e, st') →
      st' = st) ∧
    (∀ e st', setTipStates st instanceId idx inStates = (some e, st') →
      st' = st) := by
  refine ⟨fun h => ?_, fun d hd hle => ?_, fun d hd hle => ?_,
    fun e st' h => ?_, fun e st' h => ?_⟩
  · simp [setPartials, setTipStates, h]
  · simp [setPartials, hd, Nat.not_lt.mpr hle]
  · simp [setTipStates, hd, Nat.not_lt.mpr hle]
  · unfold setPartials at h
    cases hi : st.instances instanceId with
    | none =>
      rw [hi] at h
      exact (Prod.ext_iff.mp h).2.symm
    | some d =>
      rw [hi] at h
      by_cases hb : idx < d.config.partialsBufferCount
      · simp [hb] at h
      · simp [hb] at h
        exact h.2.symm
  · unfold setTipStates at h
    cases hi : st.instances instanceId with
    | none =>
      rw [hi] at h
      exact (Prod.ext_iff.mp h).2.symm
    | some d =>
      rw [hi] at h
      by_cases hb : idx < d.config.compactBufferCount
      · simp [hb] at h
      · simp [hb] at h
        exact h.2.symm

/-- Concrete run of C8: loading into an unknown instance id reports
invalid-handle and leaves the (empty) store unchanged. -/
theorem claim_C8_witness :
    setPartials { instances := fun _ => none, nextId := 0 } 0 0
        (fun _ _ _ => 1) =
      (some ErrorKind.invalidHandle,
        { instances := fun _ => none, nextId := 0 }) :=
  ((claim_C8_data_loading_errors
    { instances := fun _ => none, nextId := 0 } 0 0
    (fun _ _ _ => 1) (fun _ => 0)).1 rfl).1

/-- C2: In a root-aggregation call, a site's log-likelihood output is the log
of its aggregate likelihood plus the accumulated scale-factor correction of
the (root) buffer; a state-frequency list of length one is broadcast: that
single vector is used by every triple, so the aggregate likelihood equals the
sum over triples of weight times Σ_state freq[state] · partials[site, state]
with the categories of each triple summed first and the shared vector `f` in
every summand. -/
theorem claim_C2_root_log_likelihood
    (dims : Dims) (st : BufferState) (bufferIndices : List Nat)
    (weights : List ℚ) (stateFrequencies : List (Nat → ℚ)) (f : Nat → ℚ)
    (site j : Nat)
    (hL : 0 < rootLikelihood dims st bufferIndices weights stateFrequencies
      site) :
    (calculateRootLogLikelihoods dims st bufferIndices weights
        stateFrequencies site =
      some (Real.log
          ((rootLikelihood dims st bufferIndices weights stateFrequencies
            site : ℚ) : ℝ) +
        Real.log ((st.scaleRecord (bufferIndices.headD 0) site : ℚ) : ℝ))) ∧
    (frequenciesFor [f] j = f) ∧
    (rootLikelihood dims st bufferIndices weights [f] site =
      ∑ j' ∈ Finset.range bufferIndices.length,
        weights.getD j' 0 *
          ∑ i ∈ Finset.range dims.stateCount,
            f i *
              ∑ c ∈ Finset.range dims.categoryCount,
                st.partials (bufferIndices.getD j' 0) c site i) := by
  refine ⟨?_, ?_, ?_⟩
  · simp [calculateRootLogLikelihoods, hL.not_le]
  · simp [frequenciesFor]
  · simp [rootLikelihood, frequenciesFor]

/-- Concrete run of C2 on one buffer, one pattern, one category and one
state with a shared frequency vector. -/
theorem claim_C2_witness :
    calculateRootLogLikelihoods ⟨1, 1, 1⟩
        { partials := fun _ _ _ _ => 1, scaleRecord := fun _ _ => 1 }
        [0] [1] [fun _ => 1] 0 =
      some (Real.log
          ((rootLikelihood ⟨1, 1, 1⟩
            { partials := fun _ _ _ _ => 1, scaleRecord := fun _ _ => 1 }
            [0] [1] [fun _ => 1] 0 : ℚ) : ℝ) +
        Real.log ((1 : ℚ) : ℝ)) :=
  (claim_C2_root_log_likelihood ⟨1, 1, 1⟩
    { partials := fun _ _ _ _ => 1, scaleRecord := fun _ _ => 1 }
    [0] [1] [fun _ => 1] (fun _ => 1) 0 0
    (by simp [rootLikelihood, frequenciesFor, Finset.sum_range_one])).1

/-- C9: In a root-aggregation call, a site whose aggregate likelihood is
non-positive is reported by flagging (its output is `none`, no log is taken
and nothing crashes), while any other site of the same batched call whose
aggregate likelihood is positive still receives its computed log-likelihood
value: one bad site never invalidates the rest of the batch. -/
theorem claim_C9_nonpositive_site_flagged
    (dims : Dims) (st : BufferState) (bufferIndices : List Nat)
    (weights : List ℚ) (stateFrequencies : List (Nat → ℚ))
    (site site' : Nat)
    (hbad : rootLikelihood dims st bufferIndices weights stateFrequencies
      site ≤ 0)
    (hgood : 0 < rootLikelihood dims st bufferIndices weights
      stateFrequencies site') :
    calculateRootLogLikelihoods dims st bufferIndices weights
        stateFrequencies site = none ∧
    calculateRootLogLikelihoods dims st bufferIndices weights
        stateFrequencies site' =
      some (Real.log
          ((rootLikelihood dims st bufferIndices weights stateFrequencies
            site' : ℚ) : ℝ) +
        Real.log ((st.scaleRecord (bufferIndices.headD 0) site' : ℚ) : ℝ)) :=
  ⟨by simp [calculateRootLogLikelihoods, hbad],
   by simp [calculateRootLogLikelihoods, hgood.not_le]⟩

/-- Concrete run of C9: site 0 has an all-zero likelihood and is flagged,
site 1 of the same call still receives its log-likelihood value. -/
theorem claim_C9_witness :
    calculateRootLogLikelihoods ⟨1, 2, 1⟩
        { partials := fun _ _ site _ => if site = 0 then 0 else 1
          scaleRecord := fun _ _ => 1 }
        [0] [1] [fun _ => 1] 0 = none ∧
    calculateRootLogLikelihoods ⟨1, 2, 1⟩
        { partials := fun _ _ site _ => if site = 0 then 0 else 1
          scaleRecord := fun _ _ => 1 }
        [0] [1] [fun _ => 1] 1 =
      some (Real.log
          ((rootLikelihood ⟨1, 2, 1⟩
            { partials := fun _ _ site _ => if site = 0 then 0 else 1
              scaleRecord := fun _ _ => 1 }
            [0] [1] [fun _ => 1] 1 : ℚ) : ℝ) +
        Real.log ((1 : ℚ) : ℝ)) :=
  claim_C9_nonpositive_site_flagged ⟨1, 2, 1⟩
    { partials := fun _ _ site _ => if site = 0 then 0 else 1
      scaleRecord := fun _ _ => 1 }
    [0] [1] [fun _ => 1] 0 1
    (by simp [rootLikelihood, frequenciesFor, Finset.sum_range_one])
    (by simp [rootLikelihood, frequenciesFor, Finset.sum_range_one])

/-- One `updateTransitionMatrices` entry does not touch the probability
matrices at other indices and writes the formula at its own. -/
theorem updateTransitionEntry_prob (expF : ℚ → ℚ) (E : EigenDecomp)
    (stateCount : Nat) (probabilityIndices : List Nat)
    (d1 d2 : Option (List Nat)) (edgeLengths : List ℚ) (n : Nat)
    (st : MatrixState) :
    (updateTransitionEntry expF E stateCount probabilityIndices d1 d2
        edgeLengths n st).prob =
      fun b =>
        if b = probabilityIndices.getD n 0 then
          fun _ i j =>
            transitionEntry expF E stateCount (edgeLengths.getD n 0) i j
        else st.prob b := by
  cases d1 <;> cases d2 <;> rfl

/-- One `updateTransitionMatrices` entry leaves the first-derivative store
unchanged when the first-derivative index array is absent. -/
theorem updateTransitionEntry_deriv1_none (expF : ℚ → ℚ) (E : EigenDecomp)
    (stateCount : Nat) (probabilityIndices : List Nat)
    (d2 : Option (List Nat)) (edgeLengths : List ℚ) (n : Nat)
    (st : MatrixState) :
    (updateTransitionEntry expF E stateCount probabilityIndices none d2
        edgeLengths n st).deriv1 = st.deriv1 := by
  cases d2 <;> rfl

/-- One `updateTransitionMatrices` entry leaves the second-derivative store
unchanged when the second-derivative index array is absent. -/
theorem updateTransitionEntry_deriv2_none (expF : ℚ → ℚ) (E : EigenDecomp)
    (stateCount : Nat) (probabilityIndices : List Nat)
    (d1 : Option (List Nat)) (edgeLengths : List ℚ) (n : Nat)
    (st : MatrixState) :
    (updateTransitionEntry expF E stateCount probabilityIndices d1 none
        edgeLengths n st).deriv2 = st.deriv2 := by
  cases d1 <;> rfl

/-- With distinct destination indices, every entry of an
`updateTransitionMatrices` call leaves its formula in its destination
probability matrix for every rate-category slot. -/
theorem updateTransitionMatrices_prob_getD (expF : ℚ → ℚ) (E : EigenDecomp)
    (stateCount : Nat) (probabilityIndices : List Nat)
    (d1 d2 : Option (List Nat)) (edgeLengths : List ℚ) (count : Nat)
    (st : MatrixState) (hlen : count ≤ probabilityIndices.length)
    (hnodup : probabilityIndices.Nodup) :
    ∀ n < count, ∀ c i j,
      (updateTransitionMatrices expF E stateCount probabilityIndices d1 d2
          edgeLengths count st).prob (probabilityIndices.getD n 0) c i j =
        ∑ k ∈ Finset.range stateCount,
          E.eigenVectors i k * expF (E.eigenValues k * edgeLengths.getD n 0) *
            E.inverseEigenVectors k j := by
  induction count generalizing st with
  | zero => omega
  | succ m ih =>
    intro n hn c i j
    show (updateTransitionEntry expF E stateCount probabilityIndices d1 d2
        edgeLengths m
        (updateTransitionMatrices expF E stateCount probabilityIndices d1
          d2 edgeLengths m st)).prob
        (probabilityIndices.getD n 0) c i j = _
    rw [updateTransitionEntry_prob]
    by_cases hnm : n = m
    · subst hnm
      simp [transitionEntry]
    · have hne : probabilityIndices.getD n 0 ≠
          probabilityIndices.getD m 0 := by
        rw [List.getD_eq_getElem _ _ (by omega),
          List.getD_eq_getElem _ _ (by omega)]
        simp only [ne_eq, hnodup.getElem_inj_iff]
        omega
      simp only [if_neg hne]
      exact ih st (by omega) n (by omega) c i j

/-- A call with no first-derivative index array leaves the first-derivative
store untouched. -/
theorem updateTransitionMatrices_deriv1_none (expF : ℚ → ℚ) (E : EigenDecomp)
    (stateCount : Nat) (probabilityIndices : List Nat)
    (d2 : Option (List Nat)) (edgeLengths : List ℚ) (count : Nat)
    (st : MatrixState) :
    (updateTransitionMatrices expF E stateCount probabilityIndices none d2
        edgeLengths count st).deriv1 = st.deriv1 := by
  induction count generalizing st with
  | zero => rfl
  | succ m ih =>
    show (updateTransitionEntry expF E stateCount probabilityIndices none
        d2 edgeLengths m
        (updateTransitionMatrices expF E stateCount probabilityIndices none
          d2 edgeLengths m st)).deriv1 = st.deriv1
    rw [updateTransitionEntry_deriv1_none]
    exact ih st

/-- A call with no second-derivative index array leaves the second-derivative
store untouched. -/
theorem updateTransitionMatrices_deriv2_none (expF : ℚ → ℚ) (E : EigenDecomp)
    (stateCount : Nat) (probabilityIndices : List Nat)
    (d1 : Option (List Nat)) (edgeLengths : List ℚ) (count : Nat)
    (st : MatrixState) :
    (updateTransitionMatrices expF E stateCount probabilityIndices d1 none
        edgeLengths count st).deriv2 = st.deriv2 := by
  induction count generalizing st with
  | zero => rfl
  | succ m ih =>
    show (updateTransitionEntry expF E stateCount probabilityIndices d1
        none edgeLengths m
        (updateTransitionMatrices expF E stateCount probabilityIndices d1
          none edgeLengths m st)).deriv2 = st.deriv2
    rw [updateTransitionEntry_deriv2_none]
    exact ih st

/-- C3: After an `updateTransitionMatrices` call with eigendecomposition
(V, V⁻¹, λ) over a list of (matrixIndex, edgeLength) entries (distinct
destination indices), each destination probability matrix holds, in every
rate-category slot, V·diag(exp(λₖ·t))·V⁻¹ for its own edge length t; and when
the first- or second-derivative index array is absent, that derivative store
is untouched for the entire call. -/
theorem claim_C3_updateTransitionMatrices
    (expF : ℚ → ℚ) (E : EigenDecomp) (stateCount : Nat)
    (probabilityIndices : List Nat) (d1 d2 : Option (List Nat))
    (edgeLengths : List ℚ) (count : Nat) (st : MatrixState)
    (hlen : count ≤ probabilityIndices.length)
    (hnodup : probabilityIndices.Nodup) :
    (∀ n < count, ∀ c i j,
      (updateTransitionMatrices expF E stateCount probabilityIndices d1 d2
          edgeLengths count st).prob (probabilityIndices.getD n 0) c i j =
        ∑ k ∈ Finset.range stateCount,
          E.eigenVectors i k * expF (E.eigenValues k * edgeLengths.getD n 0) *
            E.inverseEigenVectors k j) ∧
    (d1 = none →
      (updateTransitionMatrices expF E stateCount probabilityIndices d1 d2
          edgeLengths count st).deriv1 = st.deriv1) ∧
    (d2 = none →
      (updateTransitionMatrices expF E stateCount probabilityIndices d1 d2
          edgeLengths count st).deriv2 = st.deriv2) := by
  exact ⟨updateTransitionMatrices_prob_getD expF E stateCount
      probabilityIndices d1 d2 edgeLengths count st hlen hnodup,
    fun h1 => h1 ▸ updateTransitionMatrices_deriv1_none expF E stateCount
      probabilityIndices d2 edgeLengths count st,
    fun h2 => h2 ▸ updateTransitionMatrices_deriv2_none expF E stateCount
      probabilityIndices d1 edgeLengths count st⟩

/-- Concrete run of C3: two entries with distinct destination indices and no
derivative arrays, over a 2-state eigendecomposition. -/
theorem claim_C3_witness :
    (∀ n < 2, ∀ c i j,
      (updateTransitionMatrices (fun x => x + 1)
          ⟨fun _ _ => 1, fun _ _ => 1, fun _ => 1⟩ 2 [0, 1] none none
          [1, 2] 2
          ⟨fun _ _ _ _ => 0, fun _ _ _ _ => 0, fun _ _ _ _ => 0⟩).prob
          ([0, 1].getD n 0) c i j =
        ∑ k ∈ Finset.range 2,
          EigenDecomp.eigenVectors ⟨fun _ _ => 1, fun _ _ => 1, fun _ => 1⟩
              i k *
            (fun x => x + 1)
              (EigenDecomp.eigenValues
                  ⟨fun _ _ => 1, fun _ _ => 1, fun _ => 1⟩ k *
                [(1 : ℚ), 2].getD n 0) *
            EigenDecomp.inverseEigenVectors
              ⟨fun _ _ => 1, fun _ _ => 1, fun _ => 1⟩ k j) ∧
    ((none : Option (List Nat)) = none →
      (updateTransitionMatrices (fun x => x + 1)
          ⟨fun _ _ => 1, fun _ _ => 1, fun _ => 1⟩ 2 [0, 1] none none
          [1, 2] 2
          ⟨fun _ _ _ _ => 0, fun _ _ _ _ => 0, fun _ _ _ _ => 0⟩).deriv1 =
        fun _ _ _ _ => 0) ∧
    ((none : Option (List Nat)) = none →
      (updateTransitionMatrices (fun x => x + 1)
          ⟨fun _ _ => 1, fun _ _ => 1, fun _ => 1⟩ 2 [0, 1] none none
          [1, 2] 2
          ⟨fun _ _ _ _ => 0, fun _ _ _ _ => 0, fun _ _ _ _ => 0⟩).deriv2 =
        fun _ _ _ _ => 0) :=
  claim_C3_updateTransitionMatrices (fun x => x + 1)
    ⟨fun _ _ => 1, fun _ _ => 1, fun _ => 1⟩ 2 [0, 1] none none [1, 2] 2
    ⟨fun _ _ _ _ => 0, fun _ _ _ _ => 0, fun _ _ _ _ => 0⟩
    (by decide) (by decide)

/-- The divisor applied by rescaling is positive whenever the clamp epsilon
is nonnegative. -/
theorem rescaleDivisor_pos (eps m : ℚ) (heps : 0 ≤ eps) :
    0 < rescaleDivisor eps m := by
  unfold rescaleDivisor
  split
  · linarith
  · exact one_pos

/-- The destination cell written by one peeling step: the peeling formula's
value divided by the rescaling divisor (1 when the flag is clear). -/
theorem updatePartialsOp_partials_dest (dims : Dims) (eps : ℚ)
    (matrices : Nat → Nat → Nat → Nat → ℚ) (rescale : Bool)
    (st : BufferState) (op : Operation) (c site i : Nat) :
    (updatePartialsOp dims eps matrices rescale st op).partials
        op.destinationPartials c site i =
      peelValue dims matrices st op c site i /
        (if rescale then
          rescaleDivisor eps (siteMax dims
            (fun c' i' => peelValue dims matrices st op c' site i'))
        else 1) := by
  simp [updatePartialsOp]

/-- One peeling step does not touch the partials of other buffers. -/
theorem updatePartialsOp_partials_other (dims : Dims) (eps : ℚ)
    (matrices : Nat → Nat → Nat → Nat → ℚ) (rescale : Bool)
    (st : BufferState) (op : Operation) (b : Nat)
    (h : b ≠ op.destinationPartials) :
    (updatePartialsOp dims eps matrices rescale st op).partials b =
      st.partials b := by
  simp [updatePartialsOp, h]

/-- The Scale-Factor Record written for the destination: the children's
records composed with the applied divisor (1 when the flag is clear). -/
theorem updatePartialsOp_scale_dest (dims : Dims) (eps : ℚ)
    (matrices : Nat → Nat → Nat → Nat → ℚ) (rescale : Bool)
    (st : BufferState) (op : Operation) (site : Nat) :
    (updatePartialsOp dims eps matrices rescale st op).scaleRecord
        op.destinationPartials site =
      st.scaleRecord op.child1Partials site *
          st.scaleRecord op.child2Partials site *
        (if rescale then
          rescaleDivisor eps (siteMax dims
            (fun c' i' => peelValue dims matrices st op c' site i'))
        else 1) := by
  simp [updatePartialsOp]

/-- One peeling step does not touch the Scale-Factor Records of other
buffers. -/
theorem updatePartialsOp_scale_other (dims : Dims) (eps : ℚ)
    (matrices : Nat → Nat → Nat → Nat → ℚ) (rescale : Bool)
    (st : BufferState) (op : Operation) (b : Nat)
    (h : b ≠ op.destinationPartials) :
    (updatePartialsOp dims eps matrices rescale st op).scaleRecord b =
      st.scaleRecord b := by
  simp [updatePartialsOp, h]

/-- The peeling formula is bilinear in the children's partials: scaling both
children scales the destination value by the product of their scale
factors. -/
theorem peelValue_scale (dims : Dims)
    (matrices : Nat → Nat → Nat → Nat → ℚ) (op : Operation)
    (stP stR : BufferState)
    (hpar : ∀ b c site i, stP.partials b c site i =
      stR.partials b c site i * stR.scaleRecord b site)
    (c site i : Nat) :
    peelValue dims matrices stP op c site i =
      peelValue dims matrices stR op c site i *
        (stR.scaleRecord op.child1Partials site *
          stR.scaleRecord op.child2Partials site) := by
  unfold peelValue
  have h1 : ∑ s1 ∈ Finset.range dims.stateCount,
      stP.partials op.child1Partials c site s1 *
        matrices op.child1TransitionMatrix c i s1 =
    (∑ s1 ∈ Finset.range dims.stateCount,
        stR.partials op.child1Partials c site s1 *
          matrices op.child1TransitionMatrix c i s1) *
      stR.scaleRecord op.child1Partials site := by
    rw [Finset.sum_mul]
    refine Finset.sum_congr rfl fun s1 _ => ?_
    rw [hpar]
    ring
  have h2 : ∑ s2 ∈ Finset.range dims.stateCount,
      stP.partials op.child2Partials c site s2 *
        matrices op.child2TransitionMatrix c i s2 =
    (∑ s2 ∈ Finset.range dims.stateCount,
        stR.partials op.child2Partials c site s2 *
          matrices op.child2TransitionMatrix c i s2) *
      stR.scaleRecord op.child2Partials site := by
    rw [Finset.sum_mul]
    refine Finset.sum_congr rfl fun s2 _ => ?_
    rw [hpar]
    ring
  rw [h1, h2]
  ring

/-- One step of the rescaling-invariance simulation: if the plain state's
partials equal the rescaled state's partials times its (positive) divisor
record, buffer by buffer, and the plain state's records are all 1, the same
holds after both executors run one more operation (the plain one with the
flag clear, the rescaled one with it set). -/
theorem scaleInv_step (dims : Dims) (eps : ℚ) (heps : 0 ≤ eps)
    (matrices : Nat → Nat → Nat → Nat → ℚ) (op : Operation)
    (stP stR : BufferState)
    (hpar : ∀ b c site i, stP.partials b c site i =
      stR.partials b c site i * stR.scaleRecord b site)
    (hsp : ∀ b site, stP.scaleRecord b site = 1)
    (hpos : ∀ b site, 0 < stR.scaleRecord b site) :
    (∀ b c site i,
      (updatePartialsOp dims eps matrices false stP op).partials b c site i =
        (updatePartialsOp dims eps matrices true stR op).partials b c site i *
          (updatePartialsOp dims eps matrices true stR op).scaleRecord
            b site) ∧
    (∀ b site,
      (updatePartialsOp dims eps matrices false stP op).scaleRecord b site =
        1) ∧
    (∀ b site,
      0 < (updatePartialsOp dims eps matrices true stR op).scaleRecord
        b site) := by
  have hpeel : ∀ c site i, peelValue dims matrices stP op c site i =
      peelValue dims matrices stR op c site i *
        (stR.scaleRecord op.child1Partials site *
          stR.scaleRecord op.child2Partials site) :=
    peelValue_scale dims matrices op stP stR hpar
  refine ⟨?_, ?_, ?_⟩
  · intro b c site i
    by_cases hb : b = op.destinationPartials
    · subst hb
      rw [updatePartialsOp_partials_dest, updatePartialsOp_partials_dest,
        updatePartialsOp_scale_dest]
      simp only [if_pos, if_neg, Bool.false_eq_true, not_false_eq_true,
        if_true, if_false]
      have hD := rescaleDivisor_pos eps
        (siteMax dims (fun c' i' => peelValue dims matrices stR op c' site i'))
        heps
      rw [hpeel]
      field_simp
      ring
    · rw [updatePartialsOp_partials_other _ _ _ _ _ _ _ hb,
        updatePartialsOp_partials_other _ _ _ _ _ _ _ hb,
        updatePartialsOp_scale_other _ _ _ _ _ _ _ hb]
      exact hpar b c site i
  · intro b site
    by_cases hb : b = op.destinationPartials
    · subst hb
      rw [updatePartialsOp_scale_dest]
      simp [hsp]
    · rw [updatePartialsOp_scale_other _ _ _ _ _ _ _ hb]
      exact hsp b site
  · intro b site
    by_cases hb : b = op.destinationPartials
    · subst hb
      rw [updatePartialsOp_scale_dest]
      simp only [if_pos]
      exact mul_pos (mul_pos (hpos _ _) (hpos _ _))
        (rescaleDivisor_pos _ _ heps)
    · rw [updatePartialsOp_scale_other _ _ _ _ _ _ _ hb]
      exact hpos b site

/-- The rescaling-invariance simulation over a whole operation list. -/
theorem scaleInv_run (dims : Dims) (eps : ℚ) (heps : 0 ≤ eps)
    (matrices : Nat → Nat → Nat → Nat → ℚ) (operations : List Operation) :
    ∀ stP stR : BufferState,
    (∀ b c site i, stP.partials b c site i =
      stR.partials b c site i * stR.scaleRecord b site) →
    (∀ b site, stP.scaleRecord b site = 1) →
    (∀ b site, 0 < stR.scaleRecord b site) →
    (∀ b c site i,
      (updatePartials dims eps matrices false stP operations).partials
          b c site i =
        (updatePartials dims eps matrices true stR operations).partials
            b c site i *
          (updatePartials dims eps matrices true stR operations).scaleRecord
            b site) ∧
    (∀ b site,
      (updatePartials dims eps matrices false stP operations).scaleRecord
        b site = 1) ∧
    (∀ b site,
      0 < (updatePartials dims eps matrices true stR operations).scaleRecord
        b site) := by
  induction operations with
  | nil => exact fun stP stR h1 h2 h3 => ⟨h1, h2, h3⟩
  | cons op ops ih =>
    intro stP stR h1 h2 h3
    obtain ⟨g1, g2, g3⟩ := scaleInv_step dims eps heps matrices op stP stR
      h1 h2 h3
    exact ih _ _ g1 g2 g3

/-- The aggregate likelihood is linear in the partials of the (single)
integrated buffer: scaling that buffer's partials scales the likelihood. -/
theorem rootLikelihood_scale (dims : Dims) (stP stR : BufferState)
    (bufferIndices : List Nat) (weights : List ℚ)
    (stateFrequencies : List (Nat → ℚ)) (site b : Nat)
    (hpar : ∀ c i, stP.partials b c site i =
      stR.partials b c site i * stR.scaleRecord b site)
    (hb : ∀ j ∈ bufferIndices, j = b) :
    rootLikelihood dims stP bufferIndices weights stateFrequencies site =
      rootLikelihood dims stR bufferIndices weights stateFrequencies site *
        stR.scaleRecord b site := by
  unfold rootLikelihood
  rw [Finset.sum_mul]
  refine Finset.sum_congr rfl fun j hj => ?_
  have hgd : bufferIndices.getD j 0 = b := by
    have hjlen : j < bufferIndices.length := Finset.mem_range.mp hj
    rw [List.getD_eq_getElem _ _ hjlen]
    exact hb _ (List.getElem_mem hjlen)
  rw [hgd, mul_assoc]
  congr 1
  rw [Finset.sum_mul]
  refine Finset.sum_congr rfl fun i _ => ?_
  rw [mul_assoc]
  congr 1
  rw [Finset.sum_mul]
  exact Finset.sum_congr rfl fun c _ => hpar c i

/-- C4: For a fixed instance, operation list and parameter set, running the
partials updates with the rescale flag set and then aggregating yields
exactly the same per-site log-likelihood output as running the same updates
with the flag clear and aggregating (exact arithmetic, so equality rather
than a tolerance): rescaling only changes intermediate magnitudes, never the
final result.  The initial buffers are fresh (all scale records 1), the
clamp epsilon is nonnegative, the aggregation integrates the (single) root
buffer, and the rescaled run's aggregate likelihood at the site is
positive. -/
theorem claim_C4_rescaling_invariance (dims : Dims) (eps : ℚ)
    (heps : 0 ≤ eps) (matrices : Nat → Nat → Nat → Nat → ℚ)
    (st0 : BufferState) (h0 : ∀ b site, st0.scaleRecord b site = 1)
    (operations : List Operation) (bufferIndices : List Nat)
    (weights : List ℚ) (stateFrequencies : List (Nat → ℚ)) (b site : Nat)
    (hb : ∀ j ∈ bufferIndices, j = b) (hhead : bufferIndices.headD 0 = b)
    (hL : 0 < rootLikelihood dims
      (updatePartials dims eps matrices true st0 operations)
      bufferIndices weights stateFrequencies site) :
    calculateRootLogLikelihoods dims
        (updatePartials dims eps matrices false st0 operations)
        bufferIndices weights stateFrequencies site =
      calculateRootLogLikelihoods dims
        (updatePartials dims eps matrices true st0 operations)
        bufferIndices weights stateFrequencies site := by
  obtain ⟨hpar, hsp, hpos⟩ := scaleInv_run dims eps heps matrices operations
    st0 st0 (fun b' c site' i => by rw [h0, mul_one]) h0
    (fun b' site' => by rw [h0]; exact one_pos)
  have hfac := rootLikelihood_scale dims
    (updatePartials dims eps matrices false st0 operations)
    (updatePartials dims eps matrices true st0 operations)
    bufferIndices weights stateFrequencies site b
    (fun c i => hpar b c site i) hb
  have hS := hpos b site
  have hLP : 0 < rootLikelihood dims
      (updatePartials dims eps matrices false st0 operations)
      bufferIndices weights stateFrequencies site := by
    rw [hfac]
    exact mul_pos hL hS
  simp only [calculateRootLogLikelihoods, hLP.not_le, hL.not_le, if_false]
  congr 1
  rw [hhead, hsp b site, hfac]
  push_cast
  rw [Real.log_mul (by exact_mod_cast hL.ne') (by exact_mod_cast hS.ne'),
    Real.log_one]
  ring

/-- Concrete run of C4: one peeling operation into buffer 2 from two leaf
buffers with unit matrices and epsilon 0; the rescaled and unrescaled runs
aggregate to the same output. -/
theorem claim_C4_witness :
    calculateRootLogLikelihoods ⟨1, 1, 1⟩
        (updatePartials ⟨1, 1, 1⟩ 0 (fun _ _ _ _ => 1) false
          { partials := fun _ _ _ _ => 1, scaleRecord := fun _ _ => 1 }
          [⟨2, 0, 0, 1, 0⟩])
        [2] [1] [fun _ => 1] 0 =
      calculateRootLogLikelihoods ⟨1, 1, 1⟩
        (updatePartials ⟨1, 1, 1⟩ 0 (fun _ _ _ _ => 1) true
          { partials := fun _ _ _ _ => 1, scaleRecord := fun _ _ => 1 }
          [⟨2, 0, 0, 1, 0⟩])
        [2] [1] [fun _ => 1] 0 :=
  claim_C4_rescaling_invariance ⟨1, 1, 1⟩ 0 le_rfl (fun _ _ _ _ => 1)
    { partials := fun _ _ _ _ => 1, scaleRecord := fun _ _ => 1 }
    (fun _ _ => rfl) [⟨2, 0, 0, 1, 0⟩] [2] [1] [fun _ => 1] 2 0
    (by simp) rfl
    (by simp [rootLikelihood, frequenciesFor, Finset.sum_range_one,
      updatePartials, updatePartialsOp, peelValue, siteMax, rescaleDivisor,
      List.range_succ, max_eq_right (zero_le_one (α := ℚ))])

/-- `find?` returns the first element satisfying the predicate: the list
splits at the returned element and everything before it fails the
predicate. -/
theorem find?_eq_some_split {α : Type} (p : α → Bool) :
    ∀ (l : List α) (a : α), l.find? p = some a →
      ∃ l1 l2, l = l1 ++ a :: l2 ∧ ∀ x ∈ l1, p x = false := by
  intro l
  induction l with
  | nil => intro a h; cases h
  | cons b l ih =>
    intro a h
    by_cases hb : p b = true
    · rw [List.find?_cons_of_pos _ hb] at h
      obtain rfl : b = a := by injection h
      exact ⟨[], l, rfl, by simp⟩
    · rw [List.find?_cons_of_neg _ hb] at h
      obtain ⟨l1, l2, rfl, hl1⟩ := ih a h
      refine ⟨b :: l1, l2, rfl, ?_⟩
      intro x hx
      rcases List.mem_cons.mp hx with rfl | hx
      · simpa using hb
      · exact hl1 x hx

/-- `selectResource` when the survivor set is empty (maximal preference
score `⊥`): the call fails. -/
theorem selectResource_eq_none (candidates : List Resource) (req pref : Nat)
    (h : ((candidates.filter (meetsRequirements req)).map
      (preferenceScore pref)).maximum = ⊥) :
    selectResource candidates req pref = none := by
  show (match ((candidates.filter (meetsRequirements req)).map
      (preferenceScore pref)).maximum with
    | none => none
    | some m => (candidates.filter (meetsRequirements req)).find?
        (fun r => preferenceScore pref r == m)) = none
  rw [h]

/-- `selectResource` when the survivors' maximal preference score is `m`:
the first survivor scoring `m` is returned. -/
theorem selectResource_eq_find (candidates : List Resource) (req pref m : Nat)
    (h : ((candidates.filter (meetsRequirements req)).map
      (preferenceScore pref)).maximum = (m : WithBot Nat)) :
    selectResource candidates req pref =
      (candidates.filter (meetsRequirements req)).find?
        (fun r => preferenceScore pref r == m) := by
  show (match ((candidates.filter (meetsRequirements req)).map
      (preferenceScore pref)).maximum with
    | none => none
    | some m => (candidates.filter (meetsRequirements req)).find?
        (fun r => preferenceScore pref r == m)) =
    (candidates.filter (meetsRequirements req)).find?
      (fun r => preferenceScore pref r == m)
  rw [h]
  rfl

/-- C5: With the candidate list in enumeration order (ids strictly
increasing), resource selection fails exactly when no candidate satisfies
every requirement flag; and when it returns a resource, that resource is a
candidate satisfying all requirement flags whose count of satisfied
preference flags is maximal among the candidates satisfying the
requirements, any tie being held by a candidate of larger or equal id — so
the lowest-id maximizer is returned, and identical inputs always select the
same backend (the selector is a function of its inputs). -/
theorem claim_C5_resource_selection
    (candidates : List Resource) (req pref : Nat)
    (hsorted : candidates.Pairwise (fun a b => a.id < b.id)) :
    (selectResource candidates req pref = none ↔
      ∀ r ∈ candidates, ¬ meetsRequirements req r) ∧
    (∀ r, selectResource candidates req pref = some r →
      r ∈ candidates ∧ meetsRequirements req r ∧
      (∀ x ∈ candidates, meetsRequirements req x →
        preferenceScore pref x ≤ preferenceScore pref r) ∧
      (∀ x ∈ candidates, meetsRequirements req x →
        preferenceScore pref x = preferenceScore pref r → r.id ≤ x.id)) := by
  have hmemsurv : ∀ x, x ∈ candidates.filter (meetsRequirements req) ↔
      x ∈ candidates ∧ meetsRequirements req x := by
    intro x
    exact List.mem_filter
  constructor
  · cases hmax : ((candidates.filter (meetsRequirements req)).map
        (preferenceScore pref)).maximum with
    | bot =>
      rw [selectResource_eq_none _ _ _ hmax]
      simp only [List.maximum_eq_bot, List.map_eq_nil_iff,
        List.filter_eq_nil_iff] at hmax
      simpa using hmax
    | coe m =>
      rw [selectResource_eq_find _ _ _ m hmax]
      have hm : m ∈ (candidates.filter (meetsRequirements req)).map
          (preferenceScore pref) := List.maximum_mem hmax
      obtain ⟨r0, hr0, hscore⟩ := List.mem_map.mp hm
      have hfind : ((candidates.filter (meetsRequirements req)).find?
          (fun r => preferenceScore pref r == m)).isSome :=
        List.find?_isSome.mpr ⟨r0, hr0, by simp [hscore]⟩
      constructor
      · intro h
        rw [h] at hfind
        cases hfind
      · intro h
        exact absurd ((hmemsurv r0).mp hr0).2 (h r0 ((hmemsurv r0).mp hr0).1)
  · intro r hr
    cases hmax : ((candidates.filter (meetsRequirements req)).map
        (preferenceScore pref)).maximum with
    | bot =>
      rw [selectResource_eq_none _ _ _ hmax] at hr
      cases hr
    | coe m =>
      rw [selectResource_eq_find _ _ _ m hmax] at hr
      have hrs : r ∈ candidates.filter (meetsRequirements req) :=
        List.mem_of_find?_eq_some hr
      have hsc : preferenceScore pref r = m := by
        have := List.find?_some hr
        simpa using this
      refine ⟨((hmemsurv r).mp hrs).1, ((hmemsurv r).mp hrs).2, ?_, ?_⟩
      · intro x hx hxreq
        have hxs : x ∈ candidates.filter (meetsRequirements req) :=
          (hmemsurv x).mpr ⟨hx, hxreq⟩
        have hle := List.le_maximum_of_mem
          (List.mem_map.mpr ⟨x, hxs, rfl⟩) hmax
        rw [hsc]
        exact_mod_cast hle
      · intro x hx hxreq hxe
        have hxs : x ∈ candidates.filter (meetsRequirements req) :=
          (hmemsurv x).mpr ⟨hx, hxreq⟩
        obtain ⟨l1, l2, hsplit, hl1⟩ := find?_eq_some_split _ _ _ hr
        have hpair : (candidates.filter (meetsRequirements req)).Pairwise
            (fun a b => a.id < b.id) := hsorted.filter _
        rw [hsplit] at hxs hpair
        rcases List.mem_append.mp hxs with hx1 | hx2
        · exfalso
          have hfalse := hl1 x hx1
          rw [hxe, hsc] at hfalse
          simp at hfalse
        · rcases List.mem_cons.mp hx2 with rfl | hx2
          · exact le_refl _
          · exact le_of_lt
              ((List.pairwise_cons.mp (List.pairwise_append.mp hpair).2.1).1
                x hx2)

/-- Concrete run of C5: two candidates satisfy the requirement flag; the
one with the higher preference score is selected. -/
theorem claim_C5_witness :
    (selectResource [⟨0, 3⟩, ⟨1, 1⟩] 1 2 = none ↔
      ∀ r ∈ [(⟨0, 3⟩ : Resource), ⟨1, 1⟩], ¬ meetsRequirements 1 r) ∧
    (∀ r, selectResource [⟨0, 3⟩, ⟨1, 1⟩] 1 2 = some r →
      r ∈ [(⟨0, 3⟩ : Resource), ⟨1, 1⟩] ∧ meetsRequirements 1 r ∧
      (∀ x ∈ [(⟨0, 3⟩ : Resource), ⟨1, 1⟩], meetsRequirements 1 x →
        preferenceScore 2 x ≤ preferenceScore 2 r) ∧
      (∀ x ∈ [(⟨0, 3⟩ : Resource), ⟨1, 1⟩], meetsRequirements 1 x →
        preferenceScore 2 x = preferenceScore 2 r → r.id ≤ x.id)) :=
  claim_C5_resource_selection [⟨0, 3⟩, ⟨1, 1⟩] 1 2 (by decide)

/-- C10: `createInstance` returns `-1` exactly when creation (resource
selection) fails; a successful creation returns the store's next fresh
identifier — a natural number, so never `-1` — and two successive successful
creations return distinct identifiers. -/
theorem claim_C10_createInstance_identifier
    (st : Store) (config config2 : InstanceConfig)
    (candidates candidates2 : List Resource)
    (pref req pref2 req2 : Nat) :
    ((createInstance st config candidates pref req).1 = -1 ↔
      selectResource candidates req pref = none) ∧
    ((createInstance st config candidates pref req).1 ≠ -1 →
      (createInstance st config candidates pref req).1 = (st.nextId : Int)) ∧
    ((createInstance st config candidates pref req).1 ≠ -1 →
      (createInstance (createInstance st config candidates pref req).2
          config2 candidates2 pref2 req2).1 ≠ -1 →
      (createInstance st config candidates pref req).1 ≠
        (createInstance (createInstance st config candidates pref req).2
          config2 candidates2 pref2 req2).1) := by
  cases h1 : selectResource candidates req pref with
  | none => simp [createInstance, h1]
  | some r =>
    cases h2 : selectResource candidates2 req2 pref2 with
    | none => simp [createInstance, h1, h2]
    | some r2 => simp [createInstance, h1, h2]

/-- Concrete run of C10: two successive successful creations against a
single matching resource return distinct identifiers. -/
theorem claim_C10_witness :
    (createInstance { instances := fun _ => none, nextId := 0 }
        ⟨2, 2, 2, 4, 3, 1, 3⟩ [⟨0, 1⟩] 0 1).1 ≠
      (createInstance
        (createInstance { instances := fun _ => none, nextId := 0 }
          ⟨2, 2, 2, 4, 3, 1, 3⟩ [⟨0, 1⟩] 0 1).2
        ⟨2, 2, 2, 4, 3, 1, 3⟩ [⟨0, 1⟩] 0 1).1 :=
  (claim_C10_createInstance_identifier
    { instances := fun _ => none, nextId := 0 }
    ⟨2, 2, 2, 4, 3, 1, 3⟩ ⟨2, 2, 2, 4, 3, 1, 3⟩ [⟨0, 1⟩] [⟨0, 1⟩]
    0 1 0 1).2.2 (by decide) (by decide)

end Beagle
